import Mathlib

/-!
Verification of the WhatsApp scheduler scripts (`index.js` and `server.js`).

The repository's own logic is: read three text files (`messages.txt`,
`time.txt`, `targets.txt`), validate their shapes, normalize recipient
identifiers, and register one timer per message index, each of which fires
one send per recipient.  We embed that logic shallowly:

* a file's content is `Option String` (`none` models a missing file, in
  which case `fs.existsSync` fails and `readLines` returns `[]`);
* JavaScript's `parseInt` (no radix argument) is modelled by `parseIntJS`,
  including its leading-whitespace skip, sign handling, `0x`/`0X` hex
  prefix, and longest-digit-prefix semantics; `NaN` becomes `none`;
* `setTimeout` registration is modelled by recording, per scheduled index,
  a `Timer` carrying the message text, the millisecond offset passed to
  `setTimeout`, and the normalized recipient list; the firing time of a
  timer registered at instant `t0` is `t0 + offset` (`fireAt`);
* the per-recipient `try { await sock.sendMessage ... } catch` body is
  modelled by `fireTimer`, parameterised by an oracle telling which
  (recipient, message) sends throw; each recipient yields a `SendOutcome`
  (a sent log line or a caught-and-logged error) and no exception escapes.
-/

/-- JavaScript `content.split('\n')` on the character list of the content:
`""` splits to `[""]`, and a trailing `'\n'` yields a trailing empty
segment, exactly as in JavaScript. -/
def splitNl : List Char → List (List Char)
  | [] => [[]]
  | c :: cs =>
    match splitNl cs with
    | [] => []
    | l :: ls => if c = '\n' then [] :: l :: ls else (c :: l) :: ls

/-- JavaScript `l.trim()`: drop whitespace from both ends. -/
def trimJS (cs : List Char) : List Char :=
  ((cs.dropWhile Char.isWhitespace).reverse.dropWhile Char.isWhitespace).reverse

/-- JavaScript `l.startsWith('#')`: is the first character `'#'`? -/
def startsWithHash : List Char → Bool
  | c :: _ => c = '#'
  | [] => false

/-- `readLines(file)` from `index.js` lines 8-14 (identical in `server.js`
lines 107-113): a missing file yields `[]`; otherwise the content is split
on `'\n'`, each line trimmed, and blank lines and lines starting with `'#'`
are dropped. -/
def readLines : Option String → List String
  | none => []
  | some content =>
    ((splitNl content.data).map (fun l => String.mk (trimJS l))).filter
      (fun l => decide (0 < l.data.length) && !(startsWithHash l.data))

/-- The effect of `t.replace(/\D/g, '')`: delete every non-digit character
(JavaScript `\d` is exactly `[0-9]`, matching `Char.isDigit`). -/
def replaceNonDigits (t : String) : String :=
  String.mk (t.data.filter Char.isDigit)

/-- Recipient normalization, `index.js` lines 57-61 / `server.js` lines
137-141: compute the digit-only form, but return the raw line verbatim when
it contains `'@'` (JavaScript `t.includes('@')`); otherwise append the
fixed domain suffix. -/
def normalizeTarget (t : String) : String :=
  let clean := replaceNonDigits t
  if t.data.contains '@' then t
  else clean ++ "@s.whatsapp.net"

/-- Does a character list begin with the `0x` / `0X` hex prefix that
`parseInt` (radix undefined) recognises? -/
def hexPrefix : List Char → Bool
  | c0 :: c1 :: _ => c0 = '0' && (c1 = 'x' || c1 = 'X')
  | _ => false

/-- Hex digits accepted by `parseInt` with radix 16. -/
def isHexDigitJS (c : Char) : Bool :=
  c.isDigit || ('a' ≤ c && c ≤ 'f') || ('A' ≤ c && c ≤ 'F')

/-- Numeric value of a hex digit. -/
def hexDigitVal (c : Char) : Nat :=
  if c.isDigit then c.toNat - '0'.toNat
  else if 'a' ≤ c && c ≤ 'f' then c.toNat - 'a'.toNat + 10
  else c.toNat - 'A'.toNat + 10

/-- Value of a digit string in radix `R` (most significant first). -/
def digitsVal (R : Nat) (ds : List Char) : Nat :=
  ds.foldl (fun acc c => acc * R + hexDigitVal c) 0

/-- The unsigned core of `parseInt`: after the optional sign, an `0x`/`0X`
prefix switches to radix 16; the longest prefix of radix digits is
converted, and an empty digit run is `NaN` (`none`). -/
def parseIntCore (cs : List Char) : Option Nat :=
  if hexPrefix cs then
    let ds := (cs.drop 2).takeWhile isHexDigitJS
    if ds.isEmpty then none else some (digitsVal 16 ds)
  else
    let ds := cs.takeWhile Char.isDigit
    if ds.isEmpty then none else some (digitsVal 10 ds)

/-- JavaScript `parseInt(s)` with no radix argument, as applied to each
`time.txt` line (`index.js` line 41 / `server.js` line 121): skip leading
whitespace, read an optional sign, then parse the longest digit prefix;
`none` models `NaN`. -/
def parseIntJS (s : String) : Option Int :=
  match s.data.dropWhile Char.isWhitespace with
  | [] => Option.map (fun n : Nat => (n : Int)) (parseIntCore [])
  | c :: cs =>
    if c = '-' then Option.map (fun n : Nat => -(n : Int)) (parseIntCore cs)
    else if c = '+' then Option.map (fun n : Nat => (n : Int)) (parseIntCore cs)
    else Option.map (fun n : Nat => (n : Int)) (parseIntCore (c :: cs))

/-- One registered `setTimeout`: the message text, the millisecond offset
passed to `setTimeout` (`delaySec * 1000`), and the normalized recipient
list captured by the callback. -/
structure Timer where
  message : String
  delayMs : Int
  targets : List String
deriving Repr, DecidableEq

/-- Result of `scheduleMessages`: one constructor per logged warning
(each an early `return`), or the list of registered timers. -/
inductive ScheduleResult where
  | warnEmptyMsgOrTime
  | warnLengthMismatch
  | warnEmptyTargets
  | scheduled (timers : List Timer)
deriving Repr, DecidableEq

/-- The `messages.forEach` loop, `index.js` lines 63-79: walk the messages
with their parsed delays; an unparseable delay (`isNaN`) is skipped with no
timer; otherwise a timer with offset `delaySec * 1000` is registered.  A
message index beyond the delay list would read `undefined`, which is `NaN`,
hence is likewise skipped. -/
def scheduleLoop (targets : List String) : List String → List (Option Int) → List Timer
  | [], _ => []
  | _ :: ms, [] => scheduleLoop targets ms []
  | m :: ms, d :: ds =>
    match d with
    | none => scheduleLoop targets ms ds
    | some n => { message := m, delayMs := n * 1000, targets := targets } :: scheduleLoop targets ms ds

/-- `scheduleMessages`, `index.js` lines 35-80 / `server.js` lines 115-160:
read the three files, run the three validation guards (each logging a
warning and returning), normalize the targets, and register the timers. -/
def scheduleMessages (msgFile timeFile targetsFile : Option String) : ScheduleResult :=
  let messages := readLines msgFile
  let delays := (readLines timeFile).map parseIntJS
  let targetsRaw := readLines targetsFile
  if messages.length = 0 ∨ delays.length = 0 then .warnEmptyMsgOrTime
  else if messages.length ≠ delays.length then .warnLengthMismatch
  else if targetsRaw.length = 0 then .warnEmptyTargets
  else
    let targets := targetsRaw.map normalizeTarget
    .scheduled (scheduleLoop targets messages delays)

/-- Did `scheduleMessages` abort with a logged warning (no timers)? -/
def ScheduleResult.isWarn : ScheduleResult → Bool
  | .scheduled _ => false
  | _ => true

/-- The timers registered by a run (`[]` for an aborted run). -/
def ScheduleResult.timers : ScheduleResult → List Timer
  | .scheduled ts => ts
  | _ => []

/-- Total number of send invocations a timer list will perform: each timer
fires one `sock.sendMessage` per captured recipient. -/
def totalSends (ts : List Timer) : Nat :=
  (ts.map (fun t => t.targets.length)).sum

/-- The instant at which a timer registered at instant `t0` fires:
`setTimeout` offsets are measured from registration time. -/
def fireAt (t0 : Int) (tm : Timer) : Int :=
  t0 + tm.delayMs

/-- Outcome of one recipient's send attempt inside the timer callback:
either the success log line or the caught-and-logged error. -/
inductive SendOutcome where
  | sent (target message : String)
  | errorLogged (target : String)
deriving Repr, DecidableEq

/-- The timer callback, `index.js` lines 67-75: for every captured
recipient, attempt the send; a throw (as decided by the `fails` oracle) is
caught and logged and the loop continues.  Every recipient yields an
outcome and no exception escapes the callback. -/
def fireTimer (fails : String → String → Bool) (tm : Timer) : List SendOutcome :=
  tm.targets.map (fun tgt =>
    if fails tgt tm.message then .errorLogged tgt else .sent tgt tm.message)

/-!  Server variant: the two HTTP handlers of `server.js`. -/

/-- A minimal HTTP response: status code, optional Content-Type, body. -/
structure HttpResponse where
  status : Nat
  contentType : Option String
  body : String
deriving Repr, DecidableEq

/-- The mutable module state the handlers read (`server.js` lines 37-39),
plus whether `./auth_info.json` exists. -/
structure ServerState where
  connectionStatus : String
  lastError : Option String
  lastQr : Option String
  authFileExists : Bool

/-- The JSON object returned by `GET /status` (`server.js` line 42). -/
structure StatusJson where
  connection : String
  lastError : Option String
  authed : Bool
  hasQr : Bool
deriving Repr, DecidableEq

/-- `GET /status` handler, `server.js` lines 41-43: always replies with the
JSON view of the current state. -/
def handleStatus (st : ServerState) : StatusJson :=
  { connection := st.connectionStatus
    lastError := st.lastError
    authed := st.authFileExists
    hasQr := st.lastQr.isSome }

/-- `GET /qr.svg` handler, `server.js` lines 46-55: 404 when no QR is
pending; otherwise render it to SVG (the external `qrcode.toString`,
modelled as the `render` oracle) and reply 200, or 500 if rendering
throws. -/
def handleQrSvg (st : ServerState) (render : String → Except String String) : HttpResponse :=
  match st.lastQr with
  | none => { status := 404, contentType := none, body := "No QR available" }
  | some qr =>
    match render qr with
    | .ok svg => { status := 200, contentType := some "image/svg+xml", body := svg }
    | .error _ => { status := 500, contentType := none, body := "QR render error" }

/-!  Helper lemmas. -/

/-- A decimal digit is not a whitespace character. -/
theorem isWhitespace_eq_false_of_isDigit {c : Char} (h : c.isDigit = true) :
    c.isWhitespace = false := by
  cases hw : c.isWhitespace
  · rfl
  · exfalso
    simp only [Char.isWhitespace, Bool.or_eq_true, decide_eq_true_eq] at hw
    rcases hw with ((rfl | rfl) | rfl) | rfl <;> exact absurd h (by decide)

/-- A decimal digit is none of a list of given non-digit characters. -/
theorem ne_of_isDigit {c x : Char} (h : c.isDigit = true) (hx : x.isDigit = false) :
    c ≠ x := by
  intro he
  rw [he, hx] at h
  exact Bool.false_ne_true h

/-- `takeWhile` stops exactly at the end of a satisfying prefix. -/
theorem takeWhile_append_eq {α : Type} (p : α → Bool) (ds rest : List α)
    (h1 : ∀ c ∈ ds, p c = true) (h2 : ∀ c, rest.head? = some c → p c = false) :
    (ds ++ rest).takeWhile p = ds := by
  induction ds with
  | nil =>
    cases rest with
    | nil => rfl
    | cons r rs => simp [List.takeWhile_cons, h2 r rfl]
  | cons d ds ih =>
    simp only [List.cons_append, List.takeWhile_cons, h1 d (List.mem_cons_self d ds), if_true]
    rw [ih (fun c hc => h1 c (List.mem_cons_of_mem d hc))]

/-- A string has a character exactly when it is not the empty string. -/
theorem string_length_pos_iff (s : String) : 0 < s.data.length ↔ s ≠ "" := by
  obtain ⟨l⟩ := s
  cases l with
  | nil => decide
  | cons c cs =>
    constructor
    · intro _ he
      have h2 : c :: cs = [] := congrArg String.data he
      exact List.cons_ne_nil c cs h2
    · intro _
      simp

/-- The scheduling loop is the `filterMap` over message/delay pairs that
keeps exactly the parseable delays. -/
theorem scheduleLoop_eq_filterMap (targets : List String) (M : List String)
    (D : List (Option Int)) :
    scheduleLoop targets M D =
      (M.zip D).filterMap
        (fun p => p.2.map (fun n => Timer.mk p.1 (n * 1000) targets)) := by
  induction M generalizing D with
  | nil => simp [scheduleLoop]
  | cons m ms ih =>
    cases D with
    | nil => simp [scheduleLoop, ih]
    | cons d ds => cases d <;> simp [scheduleLoop, ih]

/-- With aligned lists, the loop registers one timer per parseable delay. -/
theorem scheduleLoop_length (targets : List String) (M : List String)
    (D : List (Option Int)) (h : M.length = D.length) :
    (scheduleLoop targets M D).length = D.countP Option.isSome := by
  induction M generalizing D with
  | nil =>
    cases D with
    | nil => simp [scheduleLoop]
    | cons d ds => exact absurd h (by simp)
  | cons m ms ih =>
    cases D with
    | nil => exact absurd h (by simp)
    | cons d ds =>
      cases d <;>
        simp [scheduleLoop, List.countP_cons, ih ds (by simpa using h)]

/-- With aligned lists and every delay parseable, the loop fires
`M.length * targets.length` sends in total. -/
theorem totalSends_scheduleLoop (targets : List String) (M : List String)
    (D : List (Option Int)) (h : M.length = D.length)
    (hall : ∀ d ∈ D, d.isSome = true) :
    totalSends (scheduleLoop targets M D) = M.length * targets.length := by
  induction M generalizing D with
  | nil => simp [scheduleLoop, totalSends]
  | cons m ms ih =>
    cases D with
    | nil => exact absurd h (by simp)
    | cons d ds =>
      cases d with
      | none => exact absurd (hall none (List.mem_cons_self _ _)) (by simp)
      | some n =>
        have := ih ds (by simpa using h) (fun d hd => hall d (List.mem_cons_of_mem _ hd))
        simp only [scheduleLoop, totalSends, List.map_cons, List.sum_cons] at this ⊢
        rw [this, List.length_cons, Nat.succ_mul]
        ring

/-- Dropping a `none` delay (with its message) from aligned prefixes leaves
the registered timers unchanged. -/
theorem scheduleLoop_excise (targets : List String) (M1 M2 : List String)
    (m : String) (D1 D2 : List (Option Int)) (h : M1.length = D1.length) :
    scheduleLoop targets (M1 ++ m :: M2) (D1 ++ none :: D2) =
      scheduleLoop targets (M1 ++ M2) (D1 ++ D2) := by
  induction M1 generalizing D1 with
  | nil =>
    cases D1 with
    | nil => simp [scheduleLoop]
    | cons d ds => exact absurd h (by simp)
  | cons a M1 ih =>
    cases D1 with
    | nil => exact absurd h (by simp)
    | cons d D1 =>
      cases d <;> simp [scheduleLoop, ih D1 (by simpa using h)]

/-- An aborted run registers no timers. -/
theorem timers_eq_nil_of_isWarn (r : ScheduleResult) (h : r.isWarn = true) :
    r.timers = [] := by
  cases r <;> simp_all [ScheduleResult.isWarn, ScheduleResult.timers]

/-!  Claim theorems. -/

/-- C1: when the three files parse to non-empty lists, the message and delay
lists have equal length, and every delay entry parses to an integer,
`scheduleMessages` schedules timers whose total number of send invocations
is `messages.length * targets.length` — one send per (message, recipient)
pair. -/
theorem schedule_total_sends (m t g : Option String)
    (hm : readLines m ≠ [])
    (ht : readLines t ≠ [])
    (hg : readLines g ≠ [])
    (hlen : (readLines m).length = (readLines t).length)
    (hall : ∀ d ∈ (readLines t).map parseIntJS, d.isSome = true) :
    ∃ ts, scheduleMessages m t g = ScheduleResult.scheduled ts ∧
      totalSends ts = (readLines m).length * (readLines g).length := by
  have h1 : ¬((readLines m).length = 0 ∨ ((readLines t).map parseIntJS).length = 0) := by
    push_neg
    exact ⟨fun h => hm (List.length_eq_zero.mp h),
      fun h => ht (by simpa [List.length_eq_zero] using h)⟩
  have h2 : ¬((readLines m).length ≠ ((readLines t).map parseIntJS).length) := by
    simp only [ne_eq, List.length_map, not_not]
    exact hlen
  have h3 : ¬((readLines g).length = 0) := fun h => hg (List.length_eq_zero.mp h)
  simp only [scheduleMessages, if_neg h1, if_neg h2, if_neg h3]
  refine ⟨_, rfl, ?_⟩
  rw [totalSends_scheduleLoop _ _ _ (by simpa using hlen) hall, List.length_map]

/-- Witness for C1 on concrete two-message, two-target files. -/
theorem schedule_total_sends_witness :
    ∃ ts, scheduleMessages (some "hello\nworld") (some "1\n2") (some "123\nuser@host") =
        ScheduleResult.scheduled ts ∧ totalSends ts = 4 := by
  obtain ⟨ts, h1, h2⟩ := schedule_total_sends (some "hello\nworld") (some "1\n2")
    (some "123\nuser@host") (by decide) (by decide) (by decide) (by decide) (by decide)
  exact ⟨ts, h1, h2.trans (by decide)⟩

/-- C2: a target line containing `'@'` is used verbatim; otherwise the
non-digit characters are stripped and `"@s.whatsapp.net"` is appended; in
particular `"15551234567"` normalizes to `"15551234567@s.whatsapp.net"`. -/
theorem normalize_target_spec :
    (∀ t : String, t.data.contains '@' = true → normalizeTarget t = t) ∧
    (∀ t : String, t.data.contains '@' = false →
      normalizeTarget t = String.mk (t.data.filter Char.isDigit) ++ "@s.whatsapp.net") ∧
    normalizeTarget "15551234567" = "15551234567@s.whatsapp.net" := by
  refine ⟨?_, ?_, by decide⟩
  · intro t h
    simp only [normalizeTarget]
    rw [if_pos h]
  · intro t h
    simp only [normalizeTarget, replaceNonDigits]
    rw [if_neg (fun hc => Bool.false_ne_true (h ▸ hc))]

/-- Witness for C2 on a pass-through address and a stripped phone number. -/
theorem normalize_target_spec_witness :
    normalizeTarget "abc@x" = "abc@x" ∧
    normalizeTarget "+1 (555) 123-4567" =
      String.mk ("+1 (555) 123-4567".data.filter Char.isDigit) ++ "@s.whatsapp.net" :=
  ⟨normalize_target_spec.1 "abc@x" (by decide),
   normalize_target_spec.2.1 "+1 (555) 123-4567" (by decide)⟩

/-- C3: an empty message list, an empty delay list, a length mismatch, or an
empty target list makes `scheduleMessages` abort with a logged warning,
zero timers and zero sends, without throwing. -/
theorem schedule_aborts_on_invalid_shape (m t g : Option String)
    (h : readLines m = [] ∨ (readLines t).map parseIntJS = [] ∨
      (readLines m).length ≠ ((readLines t).map parseIntJS).length ∨
      readLines g = []) :
    (scheduleMessages m t g).isWarn = true ∧
    (scheduleMessages m t g).timers = [] ∧
    totalSends (scheduleMessages m t g).timers = 0 := by
  have hw : (scheduleMessages m t g).isWarn = true := by
    simp only [scheduleMessages]
    split
    · rfl
    · split
      · rfl
      · split
        · rfl
        · rename_i h1 h2 h3
          exfalso
          push_neg at h1
          rcases h with h | h | h | h
          · exact h1.1 (by simp [h])
          · exact h1.2 (by simp [h])
          · exact h2 h
          · exact h3 (by simp [h])
  refine ⟨hw, timers_eq_nil_of_isWarn _ hw, ?_⟩
  rw [timers_eq_nil_of_isWarn _ hw]
  rfl

/-- Witness for C3: two messages against three delay lines abort. -/
theorem schedule_aborts_on_invalid_shape_witness :
    (scheduleMessages (some "a\nb") (some "1\n2\n3") (some "123")).isWarn = true ∧
    (scheduleMessages (some "a\nb") (some "1\n2\n3") (some "123")).timers = [] ∧
    totalSends (scheduleMessages (some "a\nb") (some "1\n2\n3") (some "123")).timers = 0 :=
  schedule_aborts_on_invalid_shape (some "a\nb") (some "1\n2\n3") (some "123") (by decide)

/-- C8: a missing input file reads as the empty list, and a run with any
missing file aborts in validation with a logged warning instead of
crashing. -/
theorem missing_file_aborts (m t g : Option String)
    (h : m = none ∨ t = none ∨ g = none) :
    readLines none = [] ∧ (scheduleMessages m t g).isWarn = true ∧
    (scheduleMessages m t g).timers = [] := by
  have hw : (scheduleMessages m t g).isWarn = true := by
    rcases h with rfl | rfl | rfl
    · simp [scheduleMessages, readLines, ScheduleResult.isWarn]
    · simp [scheduleMessages, readLines, ScheduleResult.isWarn]
    · simp only [scheduleMessages]
      split
      · rfl
      · split
        · rfl
        · split
          · rfl
          · rename_i h3
            exact absurd (by simp [readLines]) h3
  exact ⟨rfl, hw, timers_eq_nil_of_isWarn _ hw⟩

/-- Witness for C8 with a missing targets file. -/
theorem missing_file_aborts_witness :
    readLines none = [] ∧
    (scheduleMessages (some "a") (some "1") none).isWarn = true ∧
    (scheduleMessages (some "a") (some "1") none).timers = [] :=
  missing_file_aborts (some "a") (some "1") none (by decide)

/-- C4: an unparseable delay entry (`none`) skips exactly its own
(message, delay) pair: excising the pair from aligned prefixes leaves the
schedule untouched, the timer count equals the number of parseable delays,
and a concrete run with delay line `"abc"` schedules the other two
messages normally. -/
theorem nan_delay_skipped_only :
    (∀ (targets M1 M2 : List String) (m : String) (D1 D2 : List (Option Int)),
      M1.length = D1.length →
      scheduleLoop targets (M1 ++ m :: M2) (D1 ++ none :: D2) =
        scheduleLoop targets (M1 ++ M2) (D1 ++ D2)) ∧
    (∀ (targets M : List String) (D : List (Option Int)),
      M.length = D.length →
      (scheduleLoop targets M D).length = D.countP Option.isSome) ∧
    scheduleMessages (some "a\nb\nc") (some "1\nabc\n2") (some "123") =
      ScheduleResult.scheduled
        [⟨"a", 1000, ["123@s.whatsapp.net"]⟩, ⟨"c", 2000, ["123@s.whatsapp.net"]⟩] :=
  ⟨scheduleLoop_excise, scheduleLoop_length, by decide⟩

/-- Witness for C4: excising a concrete `none` entry, and counting timers. -/
theorem nan_delay_skipped_only_witness :
    scheduleLoop ["x"] (["a"] ++ "b" :: ["c"]) ([some 1] ++ none :: [some 2]) =
      scheduleLoop ["x"] (["a"] ++ ["c"]) ([some 1] ++ [some 2]) ∧
    (scheduleLoop ["x"] ["a", "b", "c"] [some 1, none, some 2]).length =
      ([some 1, none, some 2].countP Option.isSome) :=
  ⟨nan_delay_skipped_only.1 ["x"] ["a"] ["c"] "b" [some 1] [some 2] rfl,
   nan_delay_skipped_only.2.1 ["x"] ["a", "b", "c"] [some 1, none, some 2] rfl⟩

/-- C5: the timer callback attempts one send per recipient whatever fails
(the outcome list always covers every recipient), and a recipient's outcome
depends only on whether its own send throws — changing which other
recipients fail cannot change it.  No failure escapes the callback: every
attempt yields a logged outcome. -/
theorem send_failure_isolated :
    (∀ (fails : String → String → Bool) (tm : Timer),
      (fireTimer fails tm).length = tm.targets.length) ∧
    (∀ (fails fails' : String → String → Bool) (tm : Timer) (i : Nat) (tgt : String),
      tm.targets.get? i = some tgt →
      fails tgt tm.message = fails' tgt tm.message →
      (fireTimer fails tm).get? i = (fireTimer fails' tm).get? i) := by
  constructor
  · intro fails tm
    simp [fireTimer]
  · intro fails fails' tm i tgt hget hagree
    rw [List.get?_eq_getElem?] at hget
    simp only [fireTimer, List.get?_eq_getElem?, List.getElem?_map, hget]
    simp [hagree]

/-- Witness for C5: recipient "b" is sent to although "a"'s send throws. -/
theorem send_failure_isolated_witness :
    (fireTimer (fun tgt _ => tgt = "a") ⟨"m", 0, ["a", "b"]⟩).length = 2 ∧
    (fireTimer (fun tgt _ => tgt = "a") ⟨"m", 0, ["a", "b"]⟩).get? 1 =
      (fireTimer (fun _ _ => false) ⟨"m", 0, ["a", "b"]⟩).get? 1 :=
  ⟨(send_failure_isolated.1 (fun tgt _ => tgt = "a") ⟨"m", 0, ["a", "b"]⟩).trans (by decide),
   send_failure_isolated.2 (fun tgt _ => tgt = "a") (fun _ _ => false)
     ⟨"m", 0, ["a", "b"]⟩ 1 "b" (by decide) (by decide)⟩

/-- C6: the index-i pair with parseable delay `n` yields a timer whose
`setTimeout` offset is exactly `n * 1000` milliseconds, and firing times
are the registration instant plus the offset, so a smaller delay always
fires earlier regardless of file order. -/
theorem timer_offsets_independent :
    (∀ (targets M : List String) (D : List (Option Int)) (i : Nat) (m : String) (n : Int),
      (M.zip D).get? i = some (m, some n) →
      Timer.mk m (n * 1000) targets ∈ scheduleLoop targets M D) ∧
    (∀ (t0 : Int) (tm tm' : Timer),
      tm.delayMs < tm'.delayMs → fireAt t0 tm < fireAt t0 tm') := by
  constructor
  · intro targets M D i m n hget
    rw [scheduleLoop_eq_filterMap]
    exact List.mem_filterMap.mpr ⟨(m, some n), List.get?_mem hget, rfl⟩
  · intro t0 tm tm' h
    simp only [fireAt]
    exact add_lt_add_left h t0

/-- Witness for C6: the second file pair (delay 1) yields a 1000 ms timer,
and a 1000 ms timer fires before a 2000 ms one registered at the same
instant. -/
theorem timer_offsets_independent_witness :
    Timer.mk "b" (1 * 1000) ["x@y"] ∈ scheduleLoop ["x@y"] ["a", "b"] [none, some 1] ∧
    fireAt 5 ⟨"b", 1000, ["x@y"]⟩ < fireAt 5 ⟨"a", 2000, ["x@y"]⟩ :=
  ⟨timer_offsets_independent.1 ["x@y"] ["a", "b"] [none, some 1] 1 "b" 1 (by decide),
   timer_offsets_independent.2 5 ⟨"b", 1000, ["x@y"]⟩ ⟨"a", 2000, ["x@y"]⟩ (by decide)⟩

/-- C7: a trimmed line survives `readLines` exactly when it is neither
blank nor a `'#'` comment; concretely, a comment line and a blank line are
excluded while other lines are kept (the same `readLines` is applied to all
three input files in `scheduleMessages`). -/
theorem readLines_excludes_blank_and_comment :
    (∀ (c l : String), l ∈ readLines (some c) ↔
      (l ∈ (splitNl c.data).map (fun cs => String.mk (trimJS cs)) ∧
        l ≠ "" ∧ startsWithHash l.data = false)) ∧
    readLines (some "hello\n# note\n\n  world  ") = ["hello", "world"] := by
  constructor
  · intro c l
    simp only [readLines, List.mem_filter, Bool.and_eq_true, decide_eq_true_eq,
      Bool.not_eq_true', string_length_pos_iff]
  · decide

/-- C9: `GET /qr.svg` replies 404 exactly when no QR is pending; with a
pending QR whose rendering succeeds it replies 200 with the SVG; an SVG
reply implies a QR was pending; and `GET /status` always reports the
current connection state. -/
theorem http_endpoints_spec (st : ServerState) (render : String → Except String String) :
    ((handleQrSvg st render).status = 404 ↔ st.lastQr = none) ∧
    (∀ q svg, st.lastQr = some q → render q = Except.ok svg →
      handleQrSvg st render = ⟨200, some "image/svg+xml", svg⟩) ∧
    ((handleQrSvg st render).contentType = some "image/svg+xml" → st.lastQr ≠ none) ∧
    (handleStatus st).connection = st.connectionStatus := by
  refine ⟨?_, ?_, ?_, rfl⟩
  · cases hq : st.lastQr with
    | none => simp [handleQrSvg, hq]
    | some q => cases hr : render q <;> simp [handleQrSvg, hq, hr]
  · intro q svg hq hr
    simp [handleQrSvg, hq, hr]
  · intro hct hq
    simp [handleQrSvg, hq] at hct

/-- Witness for C9: a pending QR with a successful renderer yields the SVG
response. -/
theorem http_endpoints_spec_witness :
    handleQrSvg ⟨"qr", none, some "QRDATA", false⟩ (fun q => Except.ok q) =
      ⟨200, some "image/svg+xml", "QRDATA"⟩ :=
  (http_endpoints_spec ⟨"qr", none, some "QRDATA", false⟩ (fun q => Except.ok q)).2.1
    "QRDATA" "QRDATA" rfl rfl

/-- `parseIntCore` on a non-empty digit run followed by a non-digit tail
(that does not complete an `0x` prefix) returns the run's decimal value. -/
theorem parseIntCore_digits (ds rest : List Char)
    (hne : ds ≠ [])
    (hd : ∀ c ∈ ds, c.isDigit = true)
    (hx : ¬(ds = ['0'] ∧ (rest.head? = some 'x' ∨ rest.head? = some 'X')))
    (hrest : ∀ c, rest.head? = some c → c.isDigit = false) :
    parseIntCore (ds ++ rest) = some (digitsVal 10 ds) := by
  obtain ⟨d, ds', rfl⟩ : ∃ d ds', ds = d :: ds' := by
    cases ds with
    | nil => exact absurd rfl hne
    | cons d ds' => exact ⟨d, ds', rfl⟩
  have hdd : d.isDigit = true := hd d (List.mem_cons_self _ _)
  have hpre : hexPrefix ((d :: ds') ++ rest) = false := by
    cases ds' with
    | cons c2 t =>
      have hc2 : c2.isDigit = true := hd c2 (by simp)
      have hx1 : c2 ≠ 'x' := ne_of_isDigit hc2 (by decide)
      have hx2 : c2 ≠ 'X' := ne_of_isDigit hc2 (by decide)
      simp [hexPrefix, hx1, hx2]
    | nil =>
      cases rest with
      | nil => rfl
      | cons r rs =>
        by_cases hd0 : d = '0'
        · subst hd0
          have hr1 : r ≠ 'x' := fun hr => hx ⟨rfl, Or.inl (by rw [hr]; rfl)⟩
          have hr2 : r ≠ 'X' := fun hr => hx ⟨rfl, Or.inr (by rw [hr]; rfl)⟩
          simp [hexPrefix, hr1, hr2]
        · simp [hexPrefix, hd0]
  have htake : ((d :: ds') ++ rest).takeWhile Char.isDigit = d :: ds' :=
    takeWhile_append_eq Char.isDigit (d :: ds') rest hd hrest
  simp only [parseIntCore, hpre, Bool.false_eq_true, if_false, htake]
  simp

/-- `parseIntJS` on a string that starts with a digit run returns the run's
decimal value. -/
theorem parseIntJS_digits_pos (s : String) (ds rest : List Char)
    (hs : s.data = ds ++ rest)
    (hne : ds ≠ [])
    (hd : ∀ c ∈ ds, c.isDigit = true)
    (hx : ¬(ds = ['0'] ∧ (rest.head? = some 'x' ∨ rest.head? = some 'X')))
    (hrest : ∀ c, rest.head? = some c → c.isDigit = false) :
    parseIntJS s = some ((digitsVal 10 ds : Nat) : Int) := by
  obtain ⟨d, ds', rfl⟩ : ∃ d ds', ds = d :: ds' := by
    cases ds with
    | nil => exact absurd rfl hne
    | cons d ds' => exact ⟨d, ds', rfl⟩
  have hdd : d.isDigit = true := hd d (List.mem_cons_self _ _)
  have hdrop : ((d :: ds') ++ rest).dropWhile Char.isWhitespace = d :: (ds' ++ rest) := by
    rw [List.cons_append]
    exact List.dropWhile_cons_of_neg (by simp [isWhitespace_eq_false_of_isDigit hdd])
  rw [parseIntJS, hs, hdrop]
  split
  · rename_i heq
    exact absurd heq (by simp)
  · rename_i c cs heq
    injection heq with h1 h2
    subst h1
    subst h2
    rw [if_neg (ne_of_isDigit hdd (by decide)), if_neg (ne_of_isDigit hdd (by decide))]
    rw [show d :: (ds' ++ rest) = (d :: ds') ++ rest from rfl,
      parseIntCore_digits (d :: ds') rest hne hd hx hrest]
    rfl

/-- `parseIntJS` on `'-'` followed by a digit run returns the negated
decimal value of the run. -/
theorem parseIntJS_digits_neg (s : String) (ds rest : List Char)
    (hs : s.data = '-' :: (ds ++ rest))
    (hne : ds ≠ [])
    (hd : ∀ c ∈ ds, c.isDigit = true)
    (hx : ¬(ds = ['0'] ∧ (rest.head? = some 'x' ∨ rest.head? = some 'X')))
    (hrest : ∀ c, rest.head? = some c → c.isDigit = false) :
    parseIntJS s = some (-((digitsVal 10 ds : Nat) : Int)) := by
  have hdrop : ('-' :: (ds ++ rest)).dropWhile Char.isWhitespace = '-' :: (ds ++ rest) :=
    List.dropWhile_cons_of_neg (by decide)
  rw [parseIntJS, hs, hdrop]
  split
  · rename_i heq
    exact absurd heq (by simp)
  · rename_i c cs heq
    injection heq with h1 h2
    subst h1
    subst h2
    rw [if_pos rfl, parseIntCore_digits ds rest hne hd hx hrest]
    rfl

/-- C10: a delay entry is skipped only on `NaN`; an entry whose leading
characters form an integer — including a negative sign and trailing
non-numeric text — parses to that leading integer: generally for any
leading digit run (outside the `0x` hex-prefix case), and concretely
`"5x"` to 5, `"3.9"` to 3, `"-3"` to -3, while `"abc"` is `NaN`; a delay
line `"-3"` is scheduled with a negative `setTimeout` offset of -3000 ms. -/
theorem parseInt_skip_only_nan :
    (∀ (s : String) (ds rest : List Char), s.data = ds ++ rest → ds ≠ [] →
      (∀ c ∈ ds, c.isDigit = true) →
      ¬(ds = ['0'] ∧ (rest.head? = some 'x' ∨ rest.head? = some 'X')) →
      (∀ c, rest.head? = some c → c.isDigit = false) →
      parseIntJS s = some ((digitsVal 10 ds : Nat) : Int)) ∧
    (∀ (s : String) (ds rest : List Char), s.data = '-' :: (ds ++ rest) → ds ≠ [] →
      (∀ c ∈ ds, c.isDigit = true) →
      ¬(ds = ['0'] ∧ (rest.head? = some 'x' ∨ rest.head? = some 'X')) →
      (∀ c, rest.head? = some c → c.isDigit = false) →
      parseIntJS s = some (-((digitsVal 10 ds : Nat) : Int))) ∧
    parseIntJS "5x" = some 5 ∧ parseIntJS "3.9" = some 3 ∧
    parseIntJS "-3" = some (-3) ∧ parseIntJS "abc" = none ∧
    scheduleMessages (some "m") (some "-3") (some "123") =
      ScheduleResult.scheduled [⟨"m", -3000, ["123@s.whatsapp.net"]⟩] :=
  ⟨parseIntJS_digits_pos, parseIntJS_digits_neg, by decide, by decide, by decide,
   by decide, by decide⟩

/-- Witness for C10: the general clauses applied to `"5x"` and `"-3"`. -/
theorem parseInt_skip_only_nan_witness :
    parseIntJS "5x" = some ((digitsVal 10 ['5'] : Nat) : Int) ∧
    parseIntJS "-3" = some (-((digitsVal 10 ['3'] : Nat) : Int)) :=
  ⟨parseInt_skip_only_nan.1 "5x" ['5'] ['x'] (by decide) (by decide) (by decide)
     (by decide) (by intro c h; simp at h; subst h; decide),
   parseInt_skip_only_nan.2.1 "-3" ['3'] [] (by decide) (by decide) (by decide)
     (by decide) (by simp)⟩
